import Mathlib

/-!
Verification of the snek_os kernel core against its specification.

Shallow embedding of the relevant kernel components:
* `snalloc` slab/fallback heap allocator (crates/snalloc/src/lib.rs)
* lazy heap mapping and the page-fault handler
  (arch/x86_64/allocator.rs, arch/x86_64/interrupts.rs)
* interrupt vector table, registration and RAII guards
  (arch/x86_64/interrupts.rs)
* monotonic clock (arch/x86_64/time.rs)
* PCI BAR parsing (arch/x86_64/pci.rs)
* executor work-stealing and panic catching (task/executor.rs)
* physical frame allocator (arch/x86_64/memory.rs)

Machine integers are modelled as `Nat` (no arithmetic here ever overflows
the source's 64-bit words at the values involved); raw pointers are byte
addresses; the null pointer is `Option.none`; heap words are a total map
`Nat → Nat` from byte addresses to stored `usize` values.
-/

/-! ## snalloc: slab allocator and fallback (crates/snalloc/src/lib.rs) -/

/-- Word-addressed heap memory: byte address of a cell ↦ the `usize`
stored in its first word (`SlabCell.next` in the source). -/
def Mem : Type := Nat → Nat

/-- Write the word at address `a`. -/
def Mem.write (m : Mem) (a v : Nat) : Mem :=
  fun x => if x = a then v else m x

/-- Read the word at address `a`. -/
def Mem.read (m : Mem) (a : Nat) : Nat := m a

/-- `SlabAllocator { start, end, next, size }` from snalloc. The `end`
field is named `stop` because `end` is a Lean keyword. -/
structure SlabAllocator where
  start : Nat
  stop : Nat
  next : Nat
  size : Nat
deriving Repr, DecidableEq

/-- `SlabAllocator::new(size)`. -/
def SlabAllocator.new (size : Nat) : SlabAllocator :=
  { start := 0, stop := 0, next := 0, size := size }

/-- `SlabAllocator::init(start, size)`. -/
def SlabAllocator.init (s : SlabAllocator) (start size : Nat) : SlabAllocator :=
  { s with start := start, stop := start + size, next := start }

/-- `Layout` of an allocation request. -/
structure Layout where
  size : Nat
  align : Nat
deriving Repr, DecidableEq

/-- `SlabAllocator::alloc`: if `next >= end` return null; otherwise hand
out the cell at `next`, reading its first word as the free-list link:
zero the word, then advance `next` linearly by `size` when the stored
link was 0, else follow the link. Returns (pointer, new slab, new memory);
`none` models `null_mut`. -/
def SlabAllocator.alloc (s : SlabAllocator) (m : Mem) :
    Option Nat × SlabAllocator × Mem :=
  if s.stop ≤ s.next then
    (none, s, m)
  else
    let cell := s.next
    let cellNext := m.read cell
    let m' := m.write cell 0
    let next' := if cellNext = 0 then s.next + s.size else cellNext
    (some cell, { s with next := next' }, m')

/-- `SlabAllocator::dealloc`: write the current `next` into the freed
cell's first word and make the cell the new `next` (LIFO push). -/
def SlabAllocator.dealloc (s : SlabAllocator) (m : Mem) (p : Nat) :
    SlabAllocator × Mem :=
  ({ s with next := p }, m.write p s.next)

/-- `BuddyAllocator::alloc` from snalloc: the fallback allocator's alloc
body is `core::ptr::null_mut()` — it unconditionally returns null. -/
def BuddyAllocator.alloc (_layout : Layout) : Option Nat := none

/-- The seven slab tier sizes of `Allocator::new()`. -/
def slabSizes : List Nat := [32, 64, 128, 256, 512, 1024, 2048]

/-- `AllocInner`: managed region plus the seven slabs (the fallback
`BuddyAllocator` holds no state in the source). -/
structure AllocInner where
  start : Nat
  size : Nat
  slabs : List SlabAllocator
deriving Repr, DecidableEq

/-- `Allocator::new()`. -/
def Allocator.new : AllocInner :=
  { start := 0, size := 0, slabs := slabSizes.map SlabAllocator.new }

/-- `Allocator::init(start, size)`: split the region into
`slabs.len() + 1` equal sub-ranges; slab `i` gets sub-range `i`, the
fallback gets the last sub-range. -/
def Allocator.init (inner : AllocInner) (start size : Nat) : AllocInner :=
  let regionSize := size / (inner.slabs.length + 1)
  { inner with
    start := start
    size := size
    slabs := inner.slabs.mapIdx fun i slab =>
      slab.init (start + regionSize * i) regionSize }

/-- `AllocInner::slab(layout)`: the index of the first slab whose tier size is
at least `max(size, align)`, if any. -/
def AllocInner.slabIdx (inner : AllocInner) (layout : Layout) : Option Nat :=
  inner.slabs.findIdx? fun slab => max layout.size layout.align ≤ slab.size

/-- `Allocator::alloc(layout)` (the `GlobalAlloc` impl): dispatch to the
first fitting slab, else to the fallback `BuddyAllocator`. -/
def Allocator.alloc (inner : AllocInner) (m : Mem) (layout : Layout) :
    Option Nat × AllocInner × Mem :=
  match inner.slabIdx layout with
  | some i =>
    match inner.slabs.get? i with
    | some slab =>
      let (p, slab', m') := slab.alloc m
      (p, { inner with slabs := inner.slabs.set i slab' }, m')
    | none => (none, inner, m)
  | none => (BuddyAllocator.alloc layout, inner, m)

/-- The kernel's managed heap region start (arch/x86_64/allocator.rs). -/
def HEAP_START : Nat := 0x400000000000

/-- The kernel's managed heap region end (arch/x86_64/allocator.rs). -/
def HEAP_END : Nat := 0x800000000000

/-! ## Physical frame allocator (arch/x86_64/memory.rs) -/

/-- `BootInfoFrameAllocator`: a LIFO free-list of frames (the source's
`FreePhysFrame` linked list, head = most recently freed) plus the lazy
iterator over the usable-region frames, modelled as the list of frames
it has yet to yield. Frames are identified by start address. -/
structure BootInfoFrameAllocator where
  freeFrames : List Nat
  iter : List Nat
deriving Repr, DecidableEq

/-- `BootInfoFrameAllocator::allocate_frame`: pop from the free-list if
it is non-null, else take the next fresh frame from the iterator. -/
def BootInfoFrameAllocator.allocateFrame (a : BootInfoFrameAllocator) :
    Option Nat × BootInfoFrameAllocator :=
  match a.freeFrames with
  | f :: rest => (some f, { a with freeFrames := rest })
  | [] => (a.iter.head?, { a with iter := a.iter.tail })

/-- `BootInfoFrameAllocator::deallocate_frame`: push the frame onto the
front of the free-list. -/
def BootInfoFrameAllocator.deallocateFrame (a : BootInfoFrameAllocator)
    (f : Nat) : BootInfoFrameAllocator :=
  { a with freeFrames := f :: a.freeFrames }

/-! ## Lazy heap mapping (arch/x86_64/allocator.rs) and the page-fault
handler (arch/x86_64/interrupts.rs) -/

/-- The page-table flags relevant to `lazy_map`. -/
structure PageFlags where
  present : Bool
  writable : Bool
deriving Repr, DecidableEq

/-- `PageTableFlags::PRESENT | PageTableFlags::WRITABLE`. -/
def presentWritable : PageFlags := { present := true, writable := true }

/-- Zero-fill the 4096 bytes of page `page` (the source's
`slice::from_raw_parts_mut(page_start, page_size).fill(0)`). -/
def Mem.zeroPage (m : Mem) (page : Nat) : Mem :=
  fun a => if page * 4096 ≤ a ∧ a < (page + 1) * 4096 then 0 else m a

/-- Virtual-memory state seen by `lazy_map`: the page table (page index ↦
(frame, flags)), the physical frame allocator, and heap memory contents. -/
structure VmState where
  mapped : Nat → Option (Nat × PageFlags)
  frames : BootInfoFrameAllocator
  mem : Mem

/-- `Mapper::translate_addr`: the physical address of `addr` if its
containing page is mapped. -/
def VmState.translate (st : VmState) (addr : Nat) : Option Nat :=
  (st.mapped (addr / 4096)).map fun fp => fp.1 * 4096 + addr % 4096

/-- Effects of a successful `lazy_map`, recorded for the specification:
which frame was allocated, whether a TLB shootdown was broadcast, and
which page was zero-filled. -/
structure LazyMapEffects where
  allocatedFrame : Option Nat
  sentShootdown : Bool
  zeroedPage : Option Nat
deriving Repr, DecidableEq

/-- Outcome of `lazy_map`: either the `allocate_frame().unwrap()` panic
(frame pool exhausted), or a boolean return with the updated state. -/
inductive LazyMapResult
  | panicOOM
  | ret (value : Bool) (st : VmState) (eff : LazyMapEffects)

/-- `lazy_map(address)`: false if the address lies outside
`[HEAP_START, HEAP_END)` or already translates; otherwise allocate one
frame, map the containing page PRESENT|WRITABLE, flush, broadcast the
TLB-shootdown IPI, zero the page, and return true. -/
def lazyMap (st : VmState) (addr : Nat) : LazyMapResult :=
  if addr < HEAP_START ∨ HEAP_END ≤ addr then
    .ret false st { allocatedFrame := none, sentShootdown := false, zeroedPage := none }
  else if (st.translate addr).isSome then
    .ret false st { allocatedFrame := none, sentShootdown := false, zeroedPage := none }
  else
    let page := addr / 4096
    match st.frames.allocateFrame with
    | (none, _) => .panicOOM
    | (some frame, frames') =>
      let mapped' := fun p => if p = page then some (frame, presentWritable) else st.mapped p
      let mem' := st.mem.zeroPage page
      .ret true { mapped := mapped', frames := frames', mem := mem' }
        { allocatedFrame := some frame, sentShootdown := true, zeroedPage := some page }

/-- The five `PageFaultErrorCode` bits decoded by the handler. -/
structure PageFaultErrorCode where
  protectionViolation : Bool
  causedByWrite : Bool
  userMode : Bool
  malformedTable : Bool
  instructionFetch : Bool
deriving Repr, DecidableEq

/-- The decoded panic produced by the page-fault handler: the five
decoded reason flags plus the faulting address read from CR2. -/
structure PageFaultPanic where
  protv : Bool
  write : Bool
  user : Bool
  malformed : Bool
  ins : Bool
  address : Nat
deriving Repr, DecidableEq

/-- Outcome of `page_fault_handler`. -/
inductive FaultResult
  | handled (st : VmState) (eff : LazyMapEffects)
  | panicked (info : PageFaultPanic)
  | panicOOM

/-- `page_fault_handler`: read CR2, try `lazy_map`; on false, panic with
the decoded error code and the faulting address; on true, return
normally (EOI in the epilogue). -/
def pageFaultHandler (st : VmState) (addr : Nat) (err : PageFaultErrorCode) :
    FaultResult :=
  match lazyMap st addr with
  | .panicOOM => .panicOOM
  | .ret false _ _ =>
    .panicked
      { protv := err.protectionViolation, write := err.causedByWrite
        user := err.userMode, malformed := err.malformedTable
        ins := err.instructionFetch, address := addr }
  | .ret true st' eff => .handled st' eff

/-! ## Interrupt vector table, registration, RAII guards
(arch/x86_64/interrupts.rs) -/

/-- `InterruptHandler`: `None | Static(fn()) | Dynamic(Box<dyn FnMut()>)`.
Function values are identified by an opaque id. -/
inductive InterruptHandler
  | none
  | static (f : Nat)
  | dynamic (f : Nat)
deriving Repr, DecidableEq

/-- `static mut INTERRUPT_HANDLERS: [InterruptHandler; 224]`, as a list
whose length is kept at 224. -/
def VectorTable : Type := List InterruptHandler

/-- `LAST_FREE = LOCAL_APIC_TLB_FLUSH - 1 = 251`. -/
def LAST_FREE : Nat := 251

/-- Outcome of the macro-generated general interrupt handler for one
delivery: whether the array index panicked, whether the empty-slot
warning was logged, which handler (if any) was invoked, and whether the
LAPIC end-of-interrupt of the epilogue ran. -/
structure GeneralDispatch where
  panicked : Bool
  warned : Bool
  invoked : Option InterruptHandler
  eoiIssued : Bool
deriving Repr, DecidableEq

/-- The slot index the dispatch path reads for IDT vector `v`:
`INTERRUPT_HANDLERS[$i - 32]` in the `handler!` macro. -/
def dispatchSlot (v : Nat) : Nat := v - 32

/-- The IDT vector raised for GSI `g`: `init_ioapic` programs each
IOAPIC's redirection window at `IOAPIC_START + gsi_base`, so entry
`g - gsi_base` fires vector `32 + g`. -/
def ioApicVector (gsi : Nat) : Nat := 32 + gsi

/-- The `handler!`-generated body for IDT vector `v`: `prologue!`
(GS swap), match on `INTERRUPT_HANDLERS[v - 32]` — warn on `None`, call
the function otherwise — then `epilogue!` (LAPIC EOI, GS swap). An
out-of-range index is an array-indexing panic. -/
def handleInterrupt (table : VectorTable) (v : Nat) : GeneralDispatch :=
  match List.get? table (dispatchSlot v) with
  | Option.none =>
    { panicked := true, warned := false, invoked := Option.none, eoiIssued := false }
  | some InterruptHandler.none =>
    { panicked := false, warned := true, invoked := Option.none, eoiIssued := true }
  | some h =>
    { panicked := false, warned := false, invoked := some h, eoiIssued := true }

/-- `InterruptGuard`: `IoApic(gsi) | Msi(cap, gsi) | MsiX(cap, gsi)`
(the capability payload is not needed for the vector-table contract). -/
inductive InterruptGuard
  | ioApic (gsi : Nat)
  | msi (gsi : Nat)
  | msiX (gsi : Nat)
deriving Repr, DecidableEq

/-- `set_interrupt` (the shared tail of `set_interrupt_static` /
`set_interrupt_dyn`), after ISO remapping has produced the final `gsi`:
configure the IOAPIC redirection entry, then
`INTERRUPT_HANDLERS[gsi as usize] = h` and enable the IRQ. `none`
models the array-indexing panic for an out-of-range `gsi`. -/
def setInterrupt (table : VectorTable) (gsi : Nat) (h : InterruptHandler) :
    Option (VectorTable × InterruptGuard) :=
  if gsi < List.length table then
    some (List.set table gsi h, InterruptGuard.ioApic gsi)
  else
    Option.none

/-- The vector scan of `set_interrupt_msi`: `gsi = 0`; for
`i in first_free..=LAST_FREE`, the first `i` whose slot
`INTERRUPT_HANDLERS[(i - 32) as usize]` is `None` wins; `0` if none. -/
def findFreeVector (table : VectorTable) (firstFree : Nat) : Nat :=
  match (List.range' firstFree (LAST_FREE + 1 - firstFree)).find?
      (fun i => decide (List.get? table (i - 32) = some InterruptHandler.none)) with
  | some i => i
  | Option.none => 0

/-- Whether the device advertises an MSI or MSI-X capability. -/
inductive MsiKind
  | msi
  | msix
deriving Repr, DecidableEq

/-- `set_interrupt_msi(header, f)`: scan for a free vector above
`first_free`; `None` if the scan found nothing (`gsi == 0`) or the
device has neither capability; otherwise program the message registers
(hardware effect, not modelled), install
`INTERRUPT_HANDLERS[(gsi - 32) as usize] = Dynamic(f)`, and return the
tagged guard carrying `gsi`. -/
def setInterruptMsi (table : VectorTable) (firstFree : Nat)
    (cap : Option MsiKind) (f : Nat) : Option (VectorTable × InterruptGuard) :=
  let gsi := findFreeVector table firstFree
  if gsi = 0 then
    Option.none
  else
    match cap with
    | Option.none => Option.none
    | some MsiKind.msi => some (List.set table (gsi - 32) (.dynamic f), .msi gsi)
    | some MsiKind.msix => some (List.set table (gsi - 32) (.dynamic f), .msiX gsi)

/-- `InterruptGuard::drop`: mask the source (IOAPIC `disable_irq` /
capability `set_enabled(false)`, hardware effects), then
`INTERRUPT_HANDLERS[gsi as usize] = InterruptHandler::None` — for every
variant the raw `gsi` the guard carries is used as the index. `none`
models the array-indexing panic when `gsi ≥ 224`. -/
def InterruptGuard.dropGuard (g : InterruptGuard) (table : VectorTable) :
    Option VectorTable :=
  let gsi := match g with
    | .ioApic gsi => gsi
    | .msi gsi => gsi
    | .msiX gsi => gsi
  if gsi < List.length table then
    some (List.set table gsi InterruptHandler.none)
  else
    Option.none

/-- A fresh 224-slot vector table, every slot `None`. -/
def emptyVectorTable : VectorTable := List.replicate 224 InterruptHandler.none

/-! ## Monotonic clock (arch/x86_64/time.rs) -/

/-- `TIMER_INTERVAL` in milliseconds. -/
def TIMER_INTERVAL_MS : Nat := 5

/-- The clock's global state: `UPTIME_MS` and `LAST_HPET`. -/
structure ClockState where
  uptimeMs : Nat
  lastHpet : Nat
deriving Repr, DecidableEq

/-- `on_tick`: add `TIMER_INTERVAL` to `UPTIME_MS`; when an HPET counter
reading is available, latch it into `LAST_HPET`. -/
def onTick (st : ClockState) (counter : Option Nat) : ClockState :=
  { uptimeMs := st.uptimeMs + TIMER_INTERVAL_MS,
    lastHpet := counter.getD st.lastHpet }

/-- `now()` in nanoseconds: `Duration::from_millis(UPTIME_MS)` plus,
when the HPET is present, `Duration::from_nanos(fs / 1000000)` where
`fs = counter.saturating_sub(LAST_HPET) * period` (`period` is the HPET
counter period in femtoseconds). -/
def nowNs (st : ClockState) (counter : Option Nat) (period : Nat) : Nat :=
  match counter with
  | Option.none => st.uptimeMs * 1000000
  | some c => st.uptimeMs * 1000000 + (c - st.lastHpet) * period / 1000000

/-! ## PCI BAR parsing (arch/x86_64/pci.rs, `Resolver::scan_function`) -/

/-- The shapes of `pci_types::Bar` relevant to the slot-skipping logic. -/
inductive Bar
  | io
  | memory32
  | memory64
deriving Repr, DecidableEq

/-- `matches!(bar, Some(Bar::Memory64 { .. }))`. -/
def isMemory64 (bar : Option Bar) : Bool :=
  match bar with
  | some Bar.memory64 => true
  | _ => false

/-- The body of the BAR loop from slot `i` with `fuel` slots left and the
current value of `skip_next`: when `skip_next` is set the iteration
`continue`s, leaving `bars[i]` at `None` — and leaving `skip_next`
untouched; otherwise it reads `endpoint_header.bar(i)`, sets `skip_next`
to whether that BAR is `Memory64`, and records the BAR. `read i` is what
`endpoint_header.bar(i, self)` returns for slot `i`. -/
def scanBarsFrom (read : Nat → Option Bar) : Nat → Nat → Bool → List (Option Bar)
  | _, 0, _ => []
  | i, fuel + 1, skipNext =>
    if skipNext then
      Option.none :: scanBarsFrom read (i + 1) fuel skipNext
    else
      let bar := read i
      bar :: scanBarsFrom read (i + 1) fuel (isMemory64 bar)

/-- The `bars` array built by `Resolver::scan_function`:
`let mut bars = [None; 6]; let mut skip_next = false; for i in 0..6 {...}`. -/
def scanBars (read : Nat → Option Bar) : List (Option Bar) :=
  scanBarsFrom read 0 6 false

/-! ## Cooperative executor (task/executor.rs) -/

/-- `MAX_STEAL_ATTEMPTS`. -/
def MAX_STEAL_ATTEMPTS : Nat := 16

/-- `MAX_STOLEN_PER_TICK`. -/
def MAX_STOLEN_PER_TICK : Nat := 256

/-- The environment one `Executor::try_steal` call runs in:
`injectorTasks` is `some n` when `RUNTIME.injector.try_steal()` succeeds
with `n` queued tasks and `none` when it returns `Err`; `victims v` is
`some c` when `RUNTIME.try_steal_from(v)` yields a stealer whose
`initial_task_count()` is `c`. -/
structure StealEnv where
  injectorTasks : Option Nat
  workStealing : Bool
  selfId : Nat
  activeCores : Nat
  victims : Nat → Option Nat

/-- What one `try_steal` call did: tasks moved onto the local queue,
whether they came from the injector, which victim core (if any) was
stolen from, and how many victim-selection loop iterations ran. -/
structure StealOutcome where
  stolen : Nat
  fromInjector : Bool
  victimUsed : Option Nat
  attempts : Nat
deriving Repr, DecidableEq

/-- The work-stealing loop `for _ in 0..MAX_STEAL_ATTEMPTS`: break when
`active_cores <= 1`; pick `victim_idx = rng.gen_range(0..active_cores)`
(`picks made` is the rng value of iteration `made`); `continue` when the
pick is `self.id`; on a successful `try_steal_from`, return
`min(initial_task_count / 2, MAX_STOLEN_PER_TICK)` tasks at once. -/
def stealLoop (env : StealEnv) (picks : Nat → Nat) :
    Nat → Nat → StealOutcome
  | made, 0 =>
    { stolen := 0, fromInjector := false, victimUsed := Option.none, attempts := made }
  | made, fuel + 1 =>
    if env.activeCores ≤ 1 then
      { stolen := 0, fromInjector := false, victimUsed := Option.none, attempts := made }
    else
      let victim := picks made
      if victim = env.selfId then
        stealLoop env picks (made + 1) fuel
      else
        match env.victims victim with
        | some c =>
          { stolen := min (c / 2) MAX_STOLEN_PER_TICK, fromInjector := false,
            victimUsed := some victim, attempts := made + 1 }
        | Option.none => stealLoop env picks (made + 1) fuel

/-- `Executor::try_steal` (called by `tick` when the local queue has no
remaining work): drain the injector first, capped at
`MAX_STOLEN_PER_TICK`; otherwise, when the `work-stealing` feature is
enabled, run the victim loop; a final injector retry sees the same
(failed) injector state. -/
def trySteal (env : StealEnv) (picks : Nat → Nat) : StealOutcome :=
  match env.injectorTasks with
  | some n =>
    { stolen := min n MAX_STOLEN_PER_TICK, fromInjector := true,
      victimUsed := Option.none, attempts := 0 }
  | Option.none =>
    if env.workStealing then
      stealLoop env picks 0 MAX_STEAL_ATTEMPTS
    else
      { stolen := 0, fromInjector := false, victimUsed := Option.none, attempts := 0 }

/-! ## Task panic isolation (task/executor.rs, `CatchUnwind` and `spawn`) -/

/-- What one `poll` of the raw (unwrapped) future does: return `Pending`,
return `Ready` with a value, or unwind with a panic payload (payloads
are identified by an opaque id). -/
inductive RawPoll (α : Type)
  | pending
  | ready (v : α)
  | panic (payload : Nat)
deriving Repr, DecidableEq

/-- `core::task::Poll`. -/
inductive Poll (α : Type)
  | pending
  | ready (v : α)
deriving Repr, DecidableEq

/-- `CatchUnwind::poll`: run the inner poll under
`unwinding::panic::catch_unwind`; `Ok(v) => v.map(Ok)`,
`Err(e) => Poll::Ready(Err(e))`. -/
def CatchUnwind.poll {α : Type} (p : RawPoll α) : Poll (Except Nat α) :=
  match p with
  | .pending => .pending
  | .ready v => .ready (.ok v)
  | .panic e => .ready (.error e)

/-- Modelled from the spec: the maitake scheduler/`JoinHandle` completion
contract used by `spawn` is not part of this repository ("on panic
during `poll`, the payload is captured and delivered via the join handle
as `Err`, and the task is considered complete"; a completed task is
never polled again). The scheduler polls the `CatchUnwind`-wrapped
future until it returns `Ready`, delivers that output to the join handle
once, and stops polling. A task is the sequence of its raw poll results
(`f j` is the j-th poll); the run returns how many times the future was
polled within `fuel` scheduler steps and the output delivered to the
join handle, if any. -/
def runTaskGo {α : Type} (f : Nat → RawPoll α) :
    Nat → Nat → Nat × Option (Except Nat α)
  | j, 0 => (j, Option.none)
  | j, fuel + 1 =>
    match CatchUnwind.poll (f j) with
    | .pending => runTaskGo f (j + 1) fuel
    | .ready out => (j + 1, some out)

/-- Modelled from the spec: running one spawned task for `fuel` scheduler
steps; `spawn` wraps the future in `CatchUnwind` before handing it to
the scheduler. -/
def runTask {α : Type} (f : Nat → RawPoll α) (fuel : Nat) :
    Nat × Option (Except Nat α) :=
  runTaskGo f 0 fuel

/-- Modelled from the spec: each spawned task is owned and polled
independently of every other task; running a batch runs each task's own
future. -/
def runAll {α : Type} (tasks : List (Nat → RawPoll α)) (fuel : Nat) :
    List (Nat × Option (Except Nat α)) :=
  tasks.map fun f => runTask f fuel

/-! ## Frame-allocator traces (for the round-trip/no-reuse property) -/

/-- One client operation against the frame allocator. -/
inductive FrameOp
  | alloc
  | dealloc (f : Nat)
deriving Repr, DecidableEq

/-- One step of a client trace, carrying the ghost multiset of live
(allocated, not yet deallocated) frames. `deallocate_frame` may only be
called on a live frame — an invalid trace yields `none`. -/
def frameStep (st : BootInfoFrameAllocator) (live : List Nat) :
    FrameOp → Option (BootInfoFrameAllocator × List Nat)
  | .alloc =>
    match st.allocateFrame with
    | (some f, st') => some (st', f :: live)
    | (Option.none, st') => some (st', live)
  | .dealloc f =>
    if f ∈ live then some (st.deallocateFrame f, live.erase f) else Option.none

/-- Run a client trace. -/
def frameRun (st : BootInfoFrameAllocator) (live : List Nat) :
    List FrameOp → Option (BootInfoFrameAllocator × List Nat)
  | [] => some (st, live)
  | op :: ops =>
    match frameStep st live op with
    | some (st', live') => frameRun st' live' ops
    | Option.none => Option.none

/-- Allocator well-formedness: the live frames, the free-list and the
remaining fresh frames are pairwise distinct (initially: the
firmware-provided usable ranges yield each frame once, and nothing is
live or free). -/
def FrameWF (st : BootInfoFrameAllocator) (live : List Nat) : Prop :=
  (live ++ st.freeFrames ++ st.iter).Nodup

/-! ## Concrete demonstration inputs -/

/-- A BAR layout as read from a device: a 64-bit memory BAR in slots 0–1,
a 32-bit memory BAR in slot 2, an I/O BAR in slot 3. -/
def demoBarRead : Nat → Option Bar
  | 0 => some Bar.memory64
  | 2 => some Bar.memory32
  | 3 => some Bar.io
  | _ => Option.none

/-- A virtual-memory state with nothing mapped, one fresh frame (number
77) available, and non-zero garbage in heap memory. -/
def demoVmState : VmState :=
  { mapped := fun _ => Option.none,
    frames := { freeFrames := [], iter := [77] },
    mem := fun _ => 5 }

/-- A faulting-address error code: a plain write to a non-present page. -/
def demoErr : PageFaultErrorCode :=
  { protectionViolation := false, causedByWrite := true, userMode := false,
    malformedTable := false, instructionFetch := false }

/-- A steal environment whose injector grab succeeds with 500 tasks. -/
def demoStealEnvInjector : StealEnv :=
  { injectorTasks := some 500, workStealing := true, selfId := 0,
    activeCores := 4, victims := fun _ => some 10 }

/-- A steal environment with a failed injector grab and one stealable
victim: core 2 with 30 tasks. -/
def demoStealEnvVictim : StealEnv :=
  { injectorTasks := Option.none, workStealing := true, selfId := 0,
    activeCores := 4,
    victims := fun v => if v = 2 then some 30 else Option.none }

/-- Rng picks: first the stealer itself (core 0), then core 2. -/
def demoPicks : Nat → Nat := fun k => if k = 0 then 0 else 2

/-! # Theorems -/

/-! ## C2: allocations above the largest slab tier -/

/-- Helper: the slab dispatch finds no tier when every tier is smaller
than `max(size, align)`. -/
theorem slabIdx_eq_none_of_all_small (inner : AllocInner) (layout : Layout)
    (h : ∀ s ∈ inner.slabs, s.size < max layout.size layout.align) :
    inner.slabIdx layout = Option.none := by
  unfold AllocInner.slabIdx
  refine List.findIdx?_eq_none_iff.mpr fun s hs => ?_
  simpa using Nat.not_le.mpr (h s hs)

/-- C2, corrected: for every layout with `max(size, align) > 2048` the
allocator dispatches to the fallback `BuddyAllocator`, whose `alloc` is
an unimplemented stub returning `null_mut()` — so `alloc` returns null
for every such layout, independent of the fallback sub-range's
occupancy, and the allocator state and memory are untouched. -/
theorem large_alloc_always_null (inner : AllocInner) (m : Mem) (layout : Layout)
    (hsizes : inner.slabs.map SlabAllocator.size = slabSizes)
    (hbig : 2048 < max layout.size layout.align) :
    Allocator.alloc inner m layout = (Option.none, inner, m) := by
  have hnone : inner.slabIdx layout = Option.none := by
    refine slabIdx_eq_none_of_all_small inner layout fun s hs => ?_
    have hmem : s.size ∈ inner.slabs.map SlabAllocator.size :=
      List.mem_map_of_mem _ hs
    rw [hsizes] at hmem
    simp [slabSizes] at hmem
    rcases hmem with h | h | h | h | h | h | h <;> omega
  unfold Allocator.alloc
  rw [hnone]
  rfl

/-- C2 witness: a 4096-byte request against the freshly initialized heap
falls to the fallback and yields null. -/
theorem large_alloc_always_null_witness :
    Allocator.alloc (Allocator.init Allocator.new HEAP_START (HEAP_END - HEAP_START))
        (fun _ => 0) { size := 4096, align := 1 }
      = (Option.none, Allocator.init Allocator.new HEAP_START (HEAP_END - HEAP_START),
         fun _ => 0) :=
  large_alloc_always_null _ _ _ (by rfl) (by decide)

/-- C2 counterexample to the claim as stated: on a freshly initialized
allocator — no allocation has ever been made, so the fallback sub-range
is certainly not exhausted — an allocation with
`max(size, align) = 4096 > 2048` already returns null. -/
theorem large_alloc_null_on_fresh_heap :
    (Allocator.alloc (Allocator.init Allocator.new HEAP_START (HEAP_END - HEAP_START))
        (fun _ => 0) { size := 4096, align := 1 }).1 = Option.none := by
  rfl

/-! ## C5: monotonic clock -/

/-- C5 counterexample: with an HPET of period 10^8 fs (100 ns per count)
and a tick that arrives only after 10^6 counts (100 ms) of interpolated
time, `now()` observed just before the tick exceeds `now()` observed
just after it (the tick adds only `TIMER_INTERVAL` = 5 ms to `UPTIME_MS`
but re-latches `LAST_HPET`, discarding the excess interpolation):
100 ms, then 5.0001 ms. -/
theorem now_decreases_across_delayed_tick :
    nowNs (onTick { uptimeMs := 0, lastHpet := 0 } (some 1000000)) (some 1000001) 100000000
      < nowNs { uptimeMs := 0, lastHpet := 0 } (some 1000000) 100000000 := by
  decide

/-- C5, amended: `now()` is non-decreasing between ticks (for HPET
counter reads `d1 ≤ d2` against the same latched state) and without an
HPET; across a tick it is non-decreasing provided the HPET-interpolated
interval at the moment of the tick does not exceed `TIMER_INTERVAL`
(a tick delayed beyond 5 ms of interpolation can make `now()` go
backwards, as the counterexample shows). -/
theorem now_monotone_with_bounded_tick_interpolation (st : ClockState)
    (period c1 c2 ct : Nat) (h1 : c1 ≤ ct) (h2 : ct ≤ c2)
    (hbound : (ct - st.lastHpet) * period / 1000000 ≤ TIMER_INTERVAL_MS * 1000000) :
    nowNs st (some c1) period ≤ nowNs (onTick st (some ct)) (some c2) period
  ∧ (∀ d1 d2 : Nat, d1 ≤ d2 → nowNs st (some d1) period ≤ nowNs st (some d2) period)
  ∧ nowNs st Option.none period ≤ nowNs (onTick st (some ct)) Option.none period := by
  refine ⟨?_, ?_, ?_⟩
  · simp only [nowNs, onTick, Option.getD, TIMER_INTERVAL_MS] at hbound ⊢
    have ha : (c1 - st.lastHpet) * period / 1000000
        ≤ (ct - st.lastHpet) * period / 1000000 :=
      Nat.div_le_div_right (Nat.mul_le_mul_right _ (Nat.sub_le_sub_right h1 _))
    omega
  · intro d1 d2 h
    simp only [nowNs]
    have hm : (d1 - st.lastHpet) * period / 1000000
        ≤ (d2 - st.lastHpet) * period / 1000000 :=
      Nat.div_le_div_right (Nat.mul_le_mul_right _ (Nat.sub_le_sub_right h _))
    omega
  · simp [nowNs, onTick, TIMER_INTERVAL_MS]

/-- C5 witness: a well-timed trace (tick interpolation 3 ms ≤ 5 ms)
where the amended monotonicity applies. -/
theorem now_monotone_with_bounded_tick_interpolation_witness :
    nowNs { uptimeMs := 10, lastHpet := 0 } (some 20000) 100000000
      ≤ nowNs (onTick { uptimeMs := 10, lastHpet := 0 } (some 30000)) (some 45000) 100000000
  ∧ (∀ d1 d2 : Nat, d1 ≤ d2 →
      nowNs { uptimeMs := 10, lastHpet := 0 } (some d1) 100000000
        ≤ nowNs { uptimeMs := 10, lastHpet := 0 } (some d2) 100000000)
  ∧ nowNs { uptimeMs := 10, lastHpet := 0 } Option.none 100000000
      ≤ nowNs (onTick { uptimeMs := 10, lastHpet := 0 } (some 30000)) Option.none 100000000 :=
  now_monotone_with_bounded_tick_interpolation { uptimeMs := 10, lastHpet := 0 }
    100000000 20000 45000 30000 (by decide) (by decide) (by decide)

/-! ## C6: PCI BAR slot skipping -/

/-- C6: on a device whose slot 0 parses as `Memory64` (with slot 2 a
`Memory32` BAR and slot 3 an I/O BAR), `scan_function` records only
slot 0: `skip_next` is set when the `Memory64` is seen and the `continue`
branch never clears it, so slots 2–5 — not just slot 1 — are left
unrecorded, although `demoBarRead 2` parses as a normal `Memory32`. -/
theorem bar_scan_skips_all_slots_after_memory64 :
    demoBarRead 2 = some Bar.memory32
  ∧ demoBarRead 3 = some Bar.io
  ∧ scanBars demoBarRead
      = [some Bar.memory64, Option.none, Option.none, Option.none,
         Option.none, Option.none] := by
  decide

/-! ## C9: delivery of a general vector with an empty slot -/

/-- C9: delivering any general interrupt vector in 32..=251 whose
vector-table slot is `None` is harmless: the macro-generated handler
logs the empty-handler warning, issues the LAPIC end-of-interrupt in its
epilogue, and returns normally without panicking. -/
theorem empty_slot_dispatch_harmless (table : VectorTable) (v : Nat)
    (h1 : 32 ≤ v) (h2 : v ≤ 251)
    (hslot : List.get? table (dispatchSlot v) = some InterruptHandler.none) :
    handleInterrupt table v =
      { panicked := false, warned := true, invoked := Option.none, eoiIssued := true } := by
  unfold handleInterrupt
  rw [hslot]

/-- C9 witness: vector 40 against the fresh 224-slot table. -/
theorem empty_slot_dispatch_harmless_witness :
    handleInterrupt emptyVectorTable 40 =
      { panicked := false, warned := true, invoked := Option.none, eoiIssued := true } :=
  empty_slot_dispatch_harmless emptyVectorTable 40 (by decide) (by decide) (by decide)

/-! ## C1: vector-table slot lifecycle of `InterruptGuard` -/

/-- C1: the IOAPIC-path guard does clear the slot it registered (for GSI
`g` the IOAPIC raises vector `32 + g`, dispatch reads slot `g`, and both
registration and drop write slot `g`). -/
theorem ioapic_guard_slot_lifecycle (table : VectorTable) (gsi : Nat)
    (h : InterruptHandler) (hlen : List.length table = 224) (hgsi : gsi < 224) :
    ∃ t1, setInterrupt table gsi h = some (t1, InterruptGuard.ioApic gsi)
      ∧ List.get? t1 (dispatchSlot (ioApicVector gsi)) = some h
      ∧ InterruptGuard.dropGuard (InterruptGuard.ioApic gsi) t1
          = some (List.set t1 gsi InterruptHandler.none)
      ∧ List.get? (List.set t1 gsi InterruptHandler.none)
          (dispatchSlot (ioApicVector gsi)) = some InterruptHandler.none := by
  have hlt : gsi < List.length table := by omega
  refine ⟨List.set table gsi h, ?_, ?_, ?_, ?_⟩
  · simp [setInterrupt, hlt]
  · have : dispatchSlot (ioApicVector gsi) = gsi := by
      simp [dispatchSlot, ioApicVector]
    rw [this]
    exact List.get?_set_eq_of_lt h hlt
  · simp [InterruptGuard.dropGuard, hlt]
  · have hds : dispatchSlot (ioApicVector gsi) = gsi := by
      simp [dispatchSlot, ioApicVector]
    rw [hds]
    have hlt2 : gsi < List.length (List.set table gsi h) := by
      simpa using hlt
    exact List.get?_set_eq_of_lt InterruptHandler.none hlt2

/-- C1 failing input: a fresh table; an IOAPIC registration for GSI 34
(slot 34, raised as vector 66) followed by an MSI registration that
allocates vector 34 (`first_free = 34`) and installs its closure at
dispatch slot `34 - 32 = 2`. Dropping the MSI guard then writes
`None` at index `gsi` (34) instead of `gsi - 32` (2): the MSI handler
stays installed at the slot the dispatch path reads for vector 34, and
the unrelated IOAPIC registration in slot 34 is wiped out. -/
theorem msi_guard_drop_clears_wrong_slot :
    ((setInterrupt emptyVectorTable 34 (InterruptHandler.static 5)).bind fun p1 =>
      (setInterruptMsi p1.1 34 (some MsiKind.msi) 7).bind fun p2 =>
        (InterruptGuard.dropGuard p2.2 p2.1).map fun t =>
          (p2.2, List.get? p2.1 (dispatchSlot 34), List.get? p2.1 34,
           List.get? t (dispatchSlot 34), List.get? t 34))
    = some (InterruptGuard.msi 34,
            some (InterruptHandler.dynamic 7), some (InterruptHandler.static 5),
            some (InterruptHandler.dynamic 7), some InterruptHandler.none) := by
  set_option maxRecDepth 10000 in decide

/-! ## C3: lazy_map and the page-fault handler -/

/-- C3: `lazy_map(addr)` returns false exactly when `addr` lies outside
`[HEAP_START, HEAP_END)` or is already mapped; otherwise (given the
frame allocator can produce a frame — its `unwrap` panics when not) it
allocates that one frame, installs a PRESENT|WRITABLE mapping for the
containing page and no other, zeroes the page, broadcasts the TLB
shootdown, and returns true with the address now translating; and the
page-fault handler panics — with the decoded reason carrying the
faulting address — precisely when `lazy_map` returns false. -/
theorem lazy_map_page_fault_spec (st : VmState) (addr : Nat)
    (err : PageFaultErrorCode) :
    ((∃ st2 eff, lazyMap st addr = .ret false st2 eff) ↔
      (addr < HEAP_START ∨ HEAP_END ≤ addr ∨ (st.translate addr).isSome = true))
  ∧ (HEAP_START ≤ addr → addr < HEAP_END → st.translate addr = Option.none →
      ∀ f fa, st.frames.allocateFrame = (some f, fa) →
      ∃ st', lazyMap st addr
            = .ret true st' { allocatedFrame := some f, sentShootdown := true,
                              zeroedPage := some (addr / 4096) }
        ∧ st'.mapped (addr / 4096) = some (f, presentWritable)
        ∧ (∀ a, addr / 4096 * 4096 ≤ a → a < (addr / 4096 + 1) * 4096 →
            st'.mem a = 0)
        ∧ st'.frames = fa
        ∧ (∀ p, p ≠ addr / 4096 → st'.mapped p = st.mapped p)
        ∧ (st'.translate addr).isSome = true)
  ∧ ((∃ info, pageFaultHandler st addr err = .panicked info)
        ↔ (∃ st2 eff, lazyMap st addr = .ret false st2 eff))
  ∧ (∀ info, pageFaultHandler st addr err = .panicked info →
        info.address = addr ∧ info.protv = err.protectionViolation
          ∧ info.write = err.causedByWrite) := by
  refine ⟨?_, ?_, ?_, ?_⟩
  · by_cases hout : addr < HEAP_START ∨ HEAP_END ≤ addr
    · simp only [lazyMap, if_pos hout]
      refine ⟨fun _ => ?_, fun _ => ⟨st, _, rfl⟩⟩
      rcases hout with h | h
      · exact Or.inl h
      · exact Or.inr (Or.inl h)
    · by_cases hmap : (st.translate addr).isSome = true
      · simp only [lazyMap, if_neg hout, if_pos hmap]
        exact ⟨fun _ => Or.inr (Or.inr hmap), fun _ => ⟨st, _, rfl⟩⟩
      · rcases halloc : st.frames.allocateFrame with ⟨o, fa⟩
        cases o with
        | none =>
          simp only [lazyMap, if_neg hout, if_neg hmap, halloc]
          constructor
          · rintro ⟨st2, eff, h⟩
            simp at h
          · intro h
            exact absurd h (by tauto)
        | some f =>
          simp only [lazyMap, if_neg hout, if_neg hmap, halloc]
          constructor
          · rintro ⟨st2, eff, h⟩
            simp at h
          · intro h
            exact absurd h (by tauto)
  · intro h1 h2 h3 f fa halloc
    have hout : ¬ (addr < HEAP_START ∨ HEAP_END ≤ addr) := by omega
    have hmap : ¬ ((st.translate addr).isSome = true) := by
      rw [h3]; simp
    refine ⟨{ mapped := fun p => if p = addr / 4096 then some (f, presentWritable)
                else st.mapped p,
              frames := fa,
              mem := st.mem.zeroPage (addr / 4096) }, ?_, ?_, ?_, ?_, ?_, ?_⟩
    · simp only [lazyMap, if_neg hout, if_neg hmap, halloc]
    · simp
    · intro a ha1 ha2
      simp only [Mem.zeroPage]
      rw [if_pos ⟨ha1, ha2⟩]
    · rfl
    · intro p hp
      simp only [if_neg hp]
    · simp [VmState.translate]
  · rcases hres : lazyMap st addr with _ | ⟨b, st2, eff⟩
    · simp [pageFaultHandler, hres]
    · cases b
      · simp [pageFaultHandler, hres]
      · simp [pageFaultHandler, hres]
  · intro info h
    rcases hres : lazyMap st addr with _ | ⟨b, st2, eff⟩
    · simp [pageFaultHandler, hres] at h
    · cases b
      · simp only [pageFaultHandler, hres] at h
        injection h with h'
        subst h'
        exact ⟨rfl, rfl, rfl⟩
      · simp [pageFaultHandler, hres] at h

/-- C3 witness: a fault at `HEAP_START + 8195` (inside the managed
region, page unmapped) against `demoVmState`: `lazy_map` maps the page
to frame 77 with PRESENT|WRITABLE, zeroes it, and broadcasts the
shootdown. -/
theorem lazy_map_page_fault_spec_witness :
    ∃ st', lazyMap demoVmState (HEAP_START + 8195)
        = .ret true st' { allocatedFrame := some 77, sentShootdown := true,
                          zeroedPage := some ((HEAP_START + 8195) / 4096) }
      ∧ st'.mapped ((HEAP_START + 8195) / 4096) = some (77, presentWritable)
      ∧ (∀ a, (HEAP_START + 8195) / 4096 * 4096 ≤ a →
            a < ((HEAP_START + 8195) / 4096 + 1) * 4096 → st'.mem a = 0)
      ∧ st'.frames = { freeFrames := [], iter := [] }
      ∧ (∀ p, p ≠ (HEAP_START + 8195) / 4096 →
            st'.mapped p = demoVmState.mapped p)
      ∧ (st'.translate (HEAP_START + 8195)).isSome = true :=
  (lazy_map_page_fault_spec demoVmState (HEAP_START + 8195) demoErr).2.1
    (by decide) (by decide) (by rfl) 77 { freeFrames := [], iter := [] } (by rfl)

/-! ## C8: frame-allocator round trip and no-reuse -/

/-- Helper: a successful `allocate_frame` never returns a live frame. -/
theorem allocateFrame_not_live (st : BootInfoFrameAllocator) (live : List Nat)
    (hwf : FrameWF st live) (g : Nat) (st' : BootInfoFrameAllocator)
    (halloc : st.allocateFrame = (some g, st')) : g ∉ live := by
  obtain ⟨free, iter⟩ := st
  unfold FrameWF at hwf
  rw [List.append_assoc] at hwf
  have hdisj := (List.nodup_append.mp hwf).2.2
  intro hg
  cases free with
  | cons f rest =>
    simp only [BootInfoFrameAllocator.allocateFrame, Prod.mk.injEq,
      Option.some.injEq] at halloc
    obtain ⟨rfl, -⟩ := halloc
    exact hdisj hg (by simp)
  | nil =>
    simp only [BootInfoFrameAllocator.allocateFrame, Prod.mk.injEq] at halloc
    have hmem : g ∈ iter := List.mem_of_mem_head? halloc.1
    exact hdisj hg (by simp [hmem])

/-- Helper: every valid client step preserves well-formedness. -/
theorem frameStep_wf (st : BootInfoFrameAllocator) (live : List Nat)
    (op : FrameOp) (st' : BootInfoFrameAllocator) (live' : List Nat)
    (hwf : FrameWF st live) (hstep : frameStep st live op = some (st', live')) :
    FrameWF st' live' := by
  obtain ⟨free, iter⟩ := st
  unfold FrameWF at hwf ⊢
  cases op with
  | alloc =>
    cases free with
    | cons f rest =>
      simp only [frameStep, BootInfoFrameAllocator.allocateFrame,
        Option.some.injEq, Prod.mk.injEq] at hstep
      obtain ⟨rfl, rfl⟩ := hstep
      have hperm : (live ++ f :: (rest ++ iter)).Perm
          (f :: (live ++ (rest ++ iter))) := List.perm_middle
      have h2 := hperm.nodup (by simpa [List.append_assoc] using hwf)
      simpa [List.append_assoc] using h2
    | nil =>
      cases iter with
      | nil =>
        simp only [frameStep, BootInfoFrameAllocator.allocateFrame,
          Option.some.injEq, Prod.mk.injEq, List.head?] at hstep
        obtain ⟨rfl, rfl⟩ := hstep
        simpa using hwf
      | cons g t =>
        simp only [frameStep, BootInfoFrameAllocator.allocateFrame,
          Option.some.injEq, Prod.mk.injEq, List.head?, List.tail] at hstep
        obtain ⟨rfl, rfl⟩ := hstep
        have hperm : (live ++ g :: t).Perm (g :: (live ++ t)) := List.perm_middle
        have h2 := hperm.nodup (by simpa using hwf)
        simpa using h2
  | dealloc f =>
    simp only [frameStep] at hstep
    by_cases hf : f ∈ live
    · rw [if_pos hf] at hstep
      simp only [BootInfoFrameAllocator.deallocateFrame, Option.some.injEq,
        Prod.mk.injEq] at hstep
      obtain ⟨rfl, rfl⟩ := hstep
      have h1 : (live ++ (free ++ iter)).Perm
          ((f :: live.erase f) ++ (free ++ iter)) :=
        (List.perm_cons_erase hf).append_right _
      have h4 : (f :: (live.erase f ++ (free ++ iter))).Nodup := by
        have := h1.nodup (by simpa [List.append_assoc] using hwf)
        simpa using this
      have h3 : (live.erase f ++ f :: (free ++ iter)).Perm
          (f :: (live.erase f ++ (free ++ iter))) := List.perm_middle
      have h5 := h3.symm.nodup h4
      simpa [List.append_assoc] using h5
    · rw [if_neg hf] at hstep
      cases hstep

/-- Helper: running any valid trace preserves well-formedness. -/
theorem frameRun_wf (ops : List FrameOp) : ∀ st live st' live',
    FrameWF st live → frameRun st live ops = some (st', live') →
    FrameWF st' live' := by
  induction ops with
  | nil =>
    intro st live st' live' hwf h
    simp only [frameRun, Option.some.injEq, Prod.mk.injEq] at h
    obtain ⟨rfl, rfl⟩ := h
    exact hwf
  | cons op ops ih =>
    intro st live st' live' hwf h
    simp only [frameRun] at h
    rcases hstep : frameStep st live op with _ | ⟨st1, live1⟩
    · rw [hstep] at h; cases h
    · rw [hstep] at h
      exact ih st1 live1 st' live' (frameStep_wf st live op st1 live1 hwf hstep) h

/-- C8: the frame allocator consults the LIFO free-list before the fresh
iterator, so `deallocate_frame(f)` followed by `allocate_frame` returns
exactly `f` and restores the allocator state; and from any well-formed
state no `allocate_frame` returns a currently-live frame, along every
valid client trace (deallocating only live frames). -/
theorem frame_allocator_round_trip (st : BootInfoFrameAllocator)
    (live : List Nat) (hwf : FrameWF st live) :
    (∀ f, (st.deallocateFrame f).allocateFrame = (some f, st))
  ∧ (∀ g st2, st.allocateFrame = (some g, st2) → g ∉ live)
  ∧ (∀ ops st' live', frameRun st live ops = some (st', live') →
       FrameWF st' live'
     ∧ ∀ g st2, st'.allocateFrame = (some g, st2) → g ∉ live') := by
  refine ⟨fun f => rfl,
    fun g st2 h => allocateFrame_not_live st live hwf g st2 h, ?_⟩
  intro ops st' live' hrun
  have hwf' := frameRun_wf ops st live st' live' hwf hrun
  exact ⟨hwf', fun g st2 h => allocateFrame_not_live st' live' hwf' g st2 h⟩

/-- C8 witness: two fresh frames, nothing live; the deallocate/allocate
round trip returns the freed frame and restores the state. -/
theorem frame_allocator_round_trip_witness :
    BootInfoFrameAllocator.allocateFrame
        (BootInfoFrameAllocator.deallocateFrame
          { freeFrames := [], iter := [4096, 8192] } 555)
      = (some 555, { freeFrames := [], iter := [4096, 8192] })
  ∧ (∀ g st2, BootInfoFrameAllocator.allocateFrame
        { freeFrames := [], iter := [4096, 8192] } = (some g, st2) →
        g ∉ ([] : List Nat)) :=
  ⟨(frame_allocator_round_trip { freeFrames := [], iter := [4096, 8192] } []
      (by unfold FrameWF; decide)).1 555,
   (frame_allocator_round_trip { freeFrames := [], iter := [4096, 8192] } []
      (by unfold FrameWF; decide)).2.1⟩

/-! ## C7: injector drain and work-stealing bounds -/

/-- Helper: the victim loop makes at most `made + fuel` attempts. -/
theorem stealLoop_attempts_le (env : StealEnv) (picks : Nat → Nat) :
    ∀ fuel made, (stealLoop env picks made fuel).attempts ≤ made + fuel := by
  intro fuel
  induction fuel with
  | zero => intro made; simp [stealLoop]
  | succ n ih =>
    intro made
    simp only [stealLoop]
    by_cases hc : env.activeCores ≤ 1
    · rw [if_pos hc]; simp
    · rw [if_neg hc]
      by_cases hv : picks made = env.selfId
      · rw [if_pos hv]
        have := ih (made + 1)
        omega
      · rw [if_neg hv]
        rcases hvic : env.victims (picks made) with _ | c
        · dsimp only
          have := ih (made + 1)
          omega
        · dsimp only
          omega

/-- Helper: a steal reported by the victim loop came from a non-self
victim with a present stealer, moving `min(count / 2, 256)` tasks. -/
theorem stealLoop_victim_spec (env : StealEnv) (picks : Nat → Nat) :
    ∀ fuel made v, (stealLoop env picks made fuel).victimUsed = some v →
      v ≠ env.selfId ∧ ∃ c, env.victims v = some c ∧
        (stealLoop env picks made fuel).stolen = min (c / 2) MAX_STOLEN_PER_TICK ∧
        (stealLoop env picks made fuel).fromInjector = false := by
  intro fuel
  induction fuel with
  | zero => intro made v hv; simp [stealLoop] at hv
  | succ n ih =>
    intro made v hv
    simp only [stealLoop] at hv ⊢
    by_cases hc : env.activeCores ≤ 1
    · rw [if_pos hc] at hv ⊢; simp at hv
    · rw [if_neg hc] at hv ⊢
      by_cases hs : picks made = env.selfId
      · rw [if_pos hs] at hv ⊢
        exact ih (made + 1) v hv
      · rw [if_neg hs] at hv ⊢
        rcases hvic : env.victims (picks made) with _ | c
        · rw [hvic] at hv
          exact ih (made + 1) v hv
        · rw [hvic] at hv
          dsimp only at hv ⊢
          simp only [Option.some.injEq] at hv
          subst hv
          exact ⟨hs, c, hvic, rfl, rfl⟩

/-- C7: when the local queue is drained, `try_steal` drains the injector
first, taking at most `MAX_STOLEN_PER_TICK = 256` tasks and touching no
victim; otherwise (injector empty/contended) with work-stealing enabled
it makes at most `MAX_STEAL_ATTEMPTS = 16` victim-selection attempts,
never steals from itself, and a successful steal transfers
`min(victim_task_count / 2, 256)` tasks. -/
theorem try_steal_spec (env : StealEnv) (picks : Nat → Nat) :
    (∀ n, env.injectorTasks = some n →
      trySteal env picks =
        { stolen := min n MAX_STOLEN_PER_TICK, fromInjector := true,
          victimUsed := Option.none, attempts := 0 })
  ∧ (env.injectorTasks = Option.none →
      (trySteal env picks).attempts ≤ MAX_STEAL_ATTEMPTS
    ∧ ∀ v, (trySteal env picks).victimUsed = some v →
        v ≠ env.selfId ∧ ∃ c, env.victims v = some c ∧
          (trySteal env picks).stolen = min (c / 2) MAX_STOLEN_PER_TICK) := by
  constructor
  · intro n hn
    simp [trySteal, hn]
  · intro hn
    simp only [trySteal, hn]
    by_cases hws : env.workStealing
    · rw [if_pos hws]
      refine ⟨by simpa using stealLoop_attempts_le env picks MAX_STEAL_ATTEMPTS 0, ?_⟩
      intro v hv
      obtain ⟨h1, c, h2, h3, -⟩ :=
        stealLoop_victim_spec env picks MAX_STEAL_ATTEMPTS 0 v hv
      exact ⟨h1, c, h2, h3⟩
    · rw [if_neg hws]
      simp

/-- C7 witness: an injector with 500 queued tasks yields a 256-task
drain; with the injector failed, picks `[self, core 2]` steal
`min(30 / 2, 256) = 15` tasks from core 2 in two attempts. -/
theorem try_steal_spec_witness :
    trySteal demoStealEnvInjector (fun _ => 1)
      = { stolen := min 500 MAX_STOLEN_PER_TICK, fromInjector := true,
          victimUsed := Option.none, attempts := 0 }
  ∧ ((trySteal demoStealEnvVictim demoPicks).attempts ≤ MAX_STEAL_ATTEMPTS
    ∧ ∀ v, (trySteal demoStealEnvVictim demoPicks).victimUsed = some v →
        v ≠ demoStealEnvVictim.selfId
      ∧ ∃ c, demoStealEnvVictim.victims v = some c
          ∧ (trySteal demoStealEnvVictim demoPicks).stolen
              = min (c / 2) MAX_STOLEN_PER_TICK) :=
  ⟨(try_steal_spec demoStealEnvInjector (fun _ => 1)).1 500 rfl,
   (try_steal_spec demoStealEnvVictim demoPicks).2 rfl⟩

/-! ## C4: panic isolation of spawned tasks -/

/-- Helper: a wrapped future pending for `n` polls and panicking on poll
`n` completes at poll `n + 1` with `Err(payload)`. -/
theorem runTaskGo_panic {α : Type} (f : Nat → RawPoll α) (e : Nat) :
    ∀ fuel j n, (∀ i, i < n → f (j + i) = .pending) → f (j + n) = .panic e →
      n + 1 ≤ fuel → runTaskGo f j fuel = (j + n + 1, some (.error e)) := by
  intro fuel
  induction fuel with
  | zero => intro j n _ _ h; omega
  | succ m ih =>
    intro j n hpend hpanic hle
    cases n with
    | zero =>
      have h0 : f j = .panic e := by simpa using hpanic
      simp [runTaskGo, h0, CatchUnwind.poll]
    | succ k =>
      have h0 : f j = .pending := by simpa using hpend 0 (Nat.succ_pos k)
      have hrec := ih (j + 1) k
        (fun i hi => by
          have h := hpend (i + 1) (by omega)
          rwa [show j + (i + 1) = j + 1 + i by omega] at h)
        (by rwa [show j + (k + 1) = j + 1 + k by omega] at hpanic)
        (by omega)
      simp only [runTaskGo, h0, CatchUnwind.poll]
      rw [hrec]
      congr 1
      omega

/-- C4: a spawned task whose wrapped future panics on its `k`-th poll
(pending before that) has the payload caught by `CatchUnwind`, delivered
through the join handle as `Err` exactly once; the task is complete
after exactly `k + 1` polls and is never polled again however long the
executor keeps running; and any batch containing other tasks runs each
of them exactly as it would run alone. -/
theorem task_panic_delivered_once {α : Type} (f : Nat → RawPoll α)
    (k e fuel : Nat) (hpend : ∀ j, j < k → f j = .pending)
    (hpanic : f k = .panic e) (hfuel : k + 1 ≤ fuel) :
    runTask f fuel = (k + 1, some (Except.error e))
  ∧ (∀ fuel2, k + 1 ≤ fuel2 → runTask f fuel2 = (k + 1, some (Except.error e)))
  ∧ (∀ (tasks : List (Nat → RawPoll α)) (g : Nat → RawPoll α),
      runAll (tasks ++ [g]) fuel = runAll tasks fuel ++ [runTask g fuel]) := by
  have main : ∀ fuel2, k + 1 ≤ fuel2 →
      runTask f fuel2 = (k + 1, some (Except.error e)) := by
    intro fuel2 h2
    have h := runTaskGo_panic f e fuel2 0 k
      (fun i hi => by simpa using hpend i hi) (by simpa using hpanic) h2
    simpa [runTask] using h
  exact ⟨main fuel hfuel, main, fun tasks g => by simp [runAll]⟩

/-- C4 witness: a task that panics with payload 9 on its first poll,
run with fuel 3: one poll, `Err(9)` delivered. -/
theorem task_panic_delivered_once_witness :
    runTask (fun _ => (RawPoll.panic 9 : RawPoll Nat)) 3
        = (1, some (Except.error 9))
  ∧ (∀ fuel2, 0 + 1 ≤ fuel2 →
      runTask (fun _ => (RawPoll.panic 9 : RawPoll Nat)) fuel2
        = (0 + 1, some (Except.error 9)))
  ∧ (∀ (tasks : List (Nat → RawPoll Nat)) (g : Nat → RawPoll Nat),
      runAll (tasks ++ [g]) 3 = runAll tasks 3 ++ [runTask g 3]) :=
  task_panic_delivered_once (fun _ => (RawPoll.panic 9 : RawPoll Nat)) 0 9 3
    (fun j hj => absurd hj (Nat.not_lt_zero j)) rfl (by decide)

/-! ## C10: slab cells, the zero free-link, and zero-filled pages -/

/-- C10: `SlabAllocator::alloc` interprets the first word of the cell at
`next` as the free-link: a zero word (a cell on a freshly zero-filled,
never-deallocated page) gives linear advance by exactly the tier size,
a non-zero word is followed as the free-list link; `dealloc` then
`alloc` round-trips the freed cell, restoring `next` to its old value
(its stored link, non-zero since the heap never starts at address 0);
and `lazy_map` zero-fills every page it maps, establishing the all-zero
initial state this depends on. -/
theorem slab_zero_link_contract (s : SlabAllocator) (m : Mem) :
    (s.next < s.stop → m s.next = 0 →
      s.alloc m = (some s.next, { s with next := s.next + s.size },
        m.write s.next 0))
  ∧ (s.next < s.stop → m s.next ≠ 0 →
      s.alloc m = (some s.next, { s with next := m s.next },
        m.write s.next 0))
  ∧ (∀ p, p < s.stop → s.next ≠ 0 →
      (s.dealloc m p).1.alloc (s.dealloc m p).2
        = (some p, s, ((s.dealloc m p).2).write p 0))
  ∧ (∀ st st' eff addr, lazyMap st addr = LazyMapResult.ret true st' eff →
      ∀ a, addr / 4096 * 4096 ≤ a → a < (addr / 4096 + 1) * 4096 →
        st'.mem a = 0) := by
  refine ⟨?_, ?_, ?_, ?_⟩
  · intro h1 h2
    simp [SlabAllocator.alloc, Mem.read, Nat.not_le.mpr h1, h2]
  · intro h1 h2
    simp [SlabAllocator.alloc, Mem.read, Nat.not_le.mpr h1, h2]
  · intro p hp hnext
    simp only [SlabAllocator.dealloc, SlabAllocator.alloc, Mem.read, Mem.write]
    rw [if_neg (Nat.not_le.mpr hp)]
    simp [hnext]
  · intro st st' eff addr h a ha1 ha2
    by_cases hout : addr < HEAP_START ∨ HEAP_END ≤ addr
    · simp only [lazyMap, if_pos hout] at h
      cases h
    · by_cases hmap : (st.translate addr).isSome = true
      · simp only [lazyMap, if_neg hout, if_pos hmap] at h
        cases h
      · rcases halloc : st.frames.allocateFrame with ⟨o, fa⟩
        cases o with
        | none =>
          simp only [lazyMap, if_neg hout, if_neg hmap, halloc] at h
          cases h
        | some fr =>
          simp only [lazyMap, if_neg hout, if_neg hmap, halloc] at h
          injection h with hv hst heff
          subst hst
          simp [Mem.zeroPage, ha1, ha2]

/-- C10 witness: a 32-byte slab at `[1000, 2000)` on zeroed memory:
a fresh cell advances `next` linearly from 1000 to 1032; freeing cell
1500 and reallocating returns 1500 and restores `next`. -/
theorem slab_zero_link_contract_witness :
    SlabAllocator.alloc { start := 1000, stop := 2000, next := 1000, size := 32 }
        (fun _ => 0)
      = (some 1000,
         { start := 1000, stop := 2000, next := 1000 + 32, size := 32 },
         Mem.write (fun _ => 0) 1000 0)
  ∧ (SlabAllocator.dealloc { start := 1000, stop := 2000, next := 1000, size := 32 }
        (fun _ => 0) 1500).1.alloc
      (SlabAllocator.dealloc { start := 1000, stop := 2000, next := 1000, size := 32 }
        (fun _ => 0) 1500).2
      = (some 1500, { start := 1000, stop := 2000, next := 1000, size := 32 },
         ((SlabAllocator.dealloc
            { start := 1000, stop := 2000, next := 1000, size := 32 }
            (fun _ => 0) 1500).2).write 1500 0) :=
  ⟨(slab_zero_link_contract
      { start := 1000, stop := 2000, next := 1000, size := 32 } (fun _ => 0)).1
      (by decide) rfl,
   (slab_zero_link_contract
      { start := 1000, stop := 2000, next := 1000, size := 32 } (fun _ => 0)).2.2.1
      1500 (by decide) (by decide)⟩
